import Mathlib

/-!
# Shallow embedding of `src/Orbitchain.py`

Every definition below mirrors the corresponding Python symbol of
`src/Orbitchain.py` (names kept where Lean allows).  Python's in-place
mutation becomes explicit state passing: a mutating method `obj.m(x)`
becomes a function `T.m : T → X → T` (paired with its return value where
the method returns one).  Python `int` is modelled by `Int` (or `Nat`
where the source value is manifestly non-negative), Python lists by
`List`, and operations that can raise an uncaught exception return
`Option` (with `none` for the raised exception).

Sources of nondeterminism in the Python code — `datetime.now()`,
`time.time()` and `random.randint` — are modelled by a logical clock
threaded through the network state and by explicit id/timestamp
arguments to the transaction constructor; no claim below depends on the
actual wall-clock or random values, only on the determinism of what is
derived from them.
-/

set_option maxRecDepth 100000
set_option maxHeartbeats 1000000

namespace Orbitchain

/-- A hexadecimal digit character, for rendering digests. -/
def hexChar (n : Nat) : Char :=
  if n < 10 then Char.ofNat (48 + n) else Char.ofNat (87 + n % 16)

/-- Model of `hashlib.sha256(s.encode()).hexdigest()`: a deterministic
function from strings to 64-character lowercase-hex strings.  The real
SHA-256 compression function is an external library primitive; the
development depends only on the model's determinism and its output
length, never on collision resistance or on particular digest values. -/
def sha256hex (s : String) : String :=
  let n : Nat := s.data.foldl (fun a c => (a * 131 + c.toNat + 17) % 18446744073709551616) 7919
  String.mk ((List.range 64).map (fun i => hexChar (((n / 16 ^ (i % 16)) + i * 2654435761) % 16)))

/-- The string of sixteen `'0'` characters (`"0" * 16` in the source). -/
def zeros16 : String := String.mk (List.replicate 16 '0')

/-- `Transaction` (`src/Orbitchain.py`, class `Transaction`). -/
structure Transaction where
  id : String
  sender : String
  receiver : String
  data : String
  tx_type : String
  timestamp : String
  signature : String
deriving DecidableEq, Repr

/-- `Transaction.__init__` together with `Transaction.sign`.  The id
(derived from `time.time()` and `random.randint`) and the creation
timestamp (`datetime.now()`) are nondeterministic in the source and are
taken here as explicit arguments; the signature is computed exactly as
`sign` does: `sha256(sender+receiver+data+timestamp)[:16]`. -/
def Transaction.create (sender receiver data tx_type id timestamp : String) : Transaction :=
  { id := id, sender := sender, receiver := receiver, data := data, tx_type := tx_type,
    timestamp := timestamp,
    signature := (sha256hex (sender ++ receiver ++ data ++ timestamp)).take 16 }

/-- `Validator` (`src/Orbitchain.py`, class `Validator`).  The stake is a
Python float used purely informationally (never read by any engine
logic); it is modelled by `Int`. -/
structure Validator where
  name : String
  stake : Int
  reputation : Nat
  is_active : Bool
  sector_position : Nat
  validated_count : Nat
deriving DecidableEq, Repr

/-- `Validator.__init__`. -/
def Validator.init (name : String) (stake : Int) : Validator :=
  { name := name, stake := stake, reputation := 100, is_active := true,
    sector_position := 0, validated_count := 0 }

/-- `Validator.validate_transaction`: returns the boolean verdict and the
updated validator (the count increments only on a `true` verdict). -/
def Validator.validate_transaction (v : Validator) (t : Transaction) : Bool × Validator :=
  if t.signature = "" ∨ t.signature.length < 10 then (false, v)
  else if t.sender = "" ∨ t.receiver = "" then (false, v)
  else (true, { v with validated_count := v.validated_count + 1 })

/-- `Orbit` (`src/Orbitchain.py`, class `Orbit`).  `max_transactions` is a
Python `int` (callers may pass any integer; the constructor performs no
validation), hence `Int`.  `validators_confirmed` is initialised to `[]`
and never written anywhere in the source. -/
structure Orbit where
  orbit_number : Nat
  transactions : List Transaction
  max_transactions : Int
  timestamp : String
  is_sealed : Bool
  validators_confirmed : List String
  orbital_hash : String
  previous_hash : String
  merkle_root : String
deriving DecidableEq, Repr

/-- `Orbit.__init__` (timestamp = `datetime.now()` passed explicitly).
Note: the constructor contains no capacity check of any kind — it only
assigns fields — so it is a total function. -/
def Orbit.init (orbit_number : Nat) (max_transactions : Int) (timestamp : String) : Orbit :=
  { orbit_number := orbit_number, transactions := [], max_transactions := max_transactions,
    timestamp := timestamp, is_sealed := false, validators_confirmed := [],
    orbital_hash := "", previous_hash := "", merkle_root := "" }

/-- One pass of the merkle `while` loop body in `Orbit.update_merkle_root`:
`for i in range(0, len(hashes), 2)` pairing adjacent entries, an odd tail
paired with itself. -/
def merkleLevel : List String → List String
  | [] => []
  | [a] => [(sha256hex (a ++ a)).take 16]
  | a :: b :: rest => (sha256hex (a ++ b)).take 16 :: merkleLevel rest

theorem merkleLevel_length : ∀ l : List String, (merkleLevel l).length = (l.length + 1) / 2
  | [] => rfl
  | [a] => by simp [merkleLevel]
  | _ :: _ :: rest => by
    simp only [merkleLevel, List.length_cons, merkleLevel_length rest]
    omega

/-- The `while len(hashes) > 1` loop of `Orbit.update_merkle_root`,
followed by `hashes[0] if hashes else "0" * 16`. -/
def merkleFold (hashes : List String) : String :=
  if _h : hashes.length ≤ 1 then
    match hashes with
    | [] => zeros16
    | a :: _ => a
  else
    merkleFold (merkleLevel hashes)
termination_by hashes.length
decreasing_by
  rw [merkleLevel_length]
  omega

/-- `Orbit.update_merkle_root`. -/
def Orbit.update_merkle_root (o : Orbit) : Orbit :=
  if o.transactions = [] then { o with merkle_root := zeros16 }
  else { o with merkle_root := merkleFold (o.transactions.map Transaction.signature) }

/-- The merkle function of an ordered list of integrity tags, as §4.3 of
the spec describes it (the computation `update_merkle_root` performs,
expressed as a pure function of the tag list). -/
def merkleFn (tags : List String) : String :=
  if tags = [] then zeros16 else merkleFold tags

/-- `Orbit.add_transaction`: returns the boolean result and the updated
orbit (unchanged on failure). -/
def Orbit.add_transaction (o : Orbit) (t : Transaction) : Bool × Orbit :=
  if o.is_sealed then (false, o)
  else if (o.transactions.length : Int) ≥ o.max_transactions then (false, o)
  else (true, Orbit.update_merkle_root { o with transactions := o.transactions ++ [t] })

/-- The `json.dumps(content, sort_keys=True)` string built in
`Orbit.seal_orbit` (keys in sorted order: merkle_root, orbit_number,
previous_hash, timestamp, transactions). -/
def sealContent (o : Orbit) : String :=
  "\x7b\"merkle_root\": \"" ++ o.merkle_root ++ "\", \"orbit_number\": " ++
    toString o.orbit_number ++ ", \"previous_hash\": \"" ++ o.previous_hash ++
    "\", \"timestamp\": \"" ++ o.timestamp ++ "\", \"transactions\": " ++
    toString o.transactions.length ++ "\x7d"

/-- `Orbit.seal_orbit`: sets `previous_hash` and `is_sealed`
unconditionally (the source contains no already-sealed guard), then
computes the orbital hash over the content structure. -/
def Orbit.seal_orbit (o : Orbit) (previous_hash : String) : Orbit :=
  let o1 := { o with previous_hash := previous_hash, is_sealed := true }
  { o1 with orbital_hash := (sha256hex (sealContent o1)).take 16 }

/-- `Orbit.is_full`. -/
def Orbit.is_full (o : Orbit) : Bool :=
  decide ((o.transactions.length : Int) ≥ o.max_transactions)

/-- A placeholder orbit used as the default of `List.getD`; list accesses
in the network code are in range in every reachable state. -/
def dummyOrbit : Orbit := Orbit.init 0 8 ""

/-- Result of `OrbitChainNetwork.show_orbit_detail`, whose observable
behaviour is: an explicit does-not-exist message, the display of one
orbit's fields, or an uncaught `IndexError`. -/
inductive OrbitDetail where
  | notFound
  | detail (o : Orbit)
  | fault
deriving DecidableEq, Repr

/-- `OrbitChainNetwork` (`src/Orbitchain.py`).  The `network_stats` dict
becomes the two counters the engine writes (`network_hash_rate` is a
constant 0 and `uptime` a wall-clock value, neither read by any engine
logic).  `clock` models the wall clock consumed by `datetime.now()` /
`time.time()` at orbit and genesis-transaction creation. -/
structure Network where
  name : String
  orbits : List Orbit
  validators : List Validator
  pending_transactions : List Transaction
  current_orbit_index : Nat
  consensus_threshold : Rat
  total_transactions : Nat
  total_orbits : Nat
  clock : Nat
deriving DecidableEq, Repr

/-- The orbit at position `i` of the ledger (`self.orbits[i]` at an
in-range non-negative index). -/
def Network.orbitAt (net : Network) (i : Nat) : Orbit :=
  net.orbits.getD i dummyOrbit

/-- `OrbitChainNetwork.create_genesis_orbit`. -/
def Network.create_genesis_orbit (net : Network) : Network :=
  let ts := toString net.clock
  let genesis := Orbit.init 0 1 ts
  let genesis_tx := Transaction.create "SYSTEM" "NETWORK" "Genesis orbit created" "genesis"
    ((sha256hex ts).take 12) ts
  let genesis := (genesis.add_transaction genesis_tx).2
  let genesis := genesis.seal_orbit ""
  { net with orbits := net.orbits ++ [genesis], total_orbits := 1, total_transactions := 1,
             clock := net.clock + 1 }

/-- `OrbitChainNetwork.__init__` (ending in the `create_genesis_orbit`
call). -/
def Network.init (name : String) (clock : Nat) : Network :=
  Network.create_genesis_orbit
    { name := name, orbits := [], validators := [], pending_transactions := [],
      current_orbit_index := 0, consensus_threshold := mkRat 67 100,
      total_transactions := 0, total_orbits := 0, clock := clock }

/-- `OrbitChainNetwork.add_validator`: sets the new validator's sector
position to `len(validators) * (360 // max(1, len(validators) + 1))`
(Python `//` on non-negative ints = `Nat` division) and appends it. -/
def Network.add_validator (net : Network) (v : Validator) : Network :=
  let v := { v with
    sector_position := net.validators.length * (360 / max 1 (net.validators.length + 1)) }
  { net with validators := net.validators ++ [v] }

/-- `OrbitChainNetwork.submit_transaction`. -/
def Network.submit_transaction (net : Network) (t : Transaction) : Network :=
  { net with pending_transactions := net.pending_transactions ++ [t] }

/-- `OrbitChainNetwork.validate_transaction_consensus`: returns `none`
where Python raises `ZeroDivisionError` (registry non-empty, zero active
validators), otherwise the boolean verdict together with the updated
validator list (each active validator's `validate_transaction` call may
increment its counter; inactive validators are skipped by the
short-circuit `and`).  Python's float quotient `approvals / active` is
modelled by the exact rational `mkRat approvals active`, and
`approval_rate >= self.consensus_threshold` by the negation of the
strict `Rat.blt` comparison; every comparison the claims exercise is
exact under both the float and the rational reading. -/
def Network.validate_transaction_consensus (net : Network) (t : Transaction) :
    Option (Bool × List Validator) :=
  if net.validators = [] then some (true, net.validators)
  else
    let step := net.validators.foldl
      (fun (acc : Nat × List Validator) v =>
        if v.is_active then
          let r := v.validate_transaction t
          (acc.1 + (if r.1 then 1 else 0), acc.2 ++ [r.2])
        else (acc.1, acc.2 ++ [v]))
      (0, [])
    let active := (step.2.filter (fun v => v.is_active)).length
    if active = 0 then none
    else some (!Rat.blt (mkRat step.1 active) net.consensus_threshold, step.2)

/-- `OrbitChainNetwork.create_new_orbit`: increments the current index
and appends a fresh default-capacity orbit numbered by the new index. -/
def Network.create_new_orbit (net : Network) : Network :=
  let idx := net.current_orbit_index + 1
  let new_orbit := Orbit.init idx 8 (toString net.clock)
  { net with current_orbit_index := idx, orbits := net.orbits ++ [new_orbit],
             total_orbits := net.total_orbits + 1, clock := net.clock + 1 }

/-- `OrbitChainNetwork.seal_current_orbit`: seals the orbit at the
current index, linking to the predecessor's orbital hash (or `""` at
index 0). -/
def Network.seal_current_orbit (net : Network) : Network :=
  let previous_hash :=
    if net.current_orbit_index > 0 then (net.orbitAt (net.current_orbit_index - 1)).orbital_hash
    else ""
  let sealed := (net.orbitAt net.current_orbit_index).seal_orbit previous_hash
  { net with orbits := net.orbits.set net.current_orbit_index sealed }

/-- The `for tx in self.pending_transactions[:]` loop of
`process_pending_transactions`: walks the snapshot in FIFO order, gating
each transaction and admitting approved ones into the current orbit;
seals and breaks when the orbit fills.  Returns the updated network and
the `processed` list, or `none` when the consensus gate raises. -/
def Network.walk (net : Network) : List Transaction → Option (Network × List Transaction)
  | [] => some (net, [])
  | t :: rest =>
    match net.validate_transaction_consensus t with
    | none => none
    | some gr =>
      let net1 : Network := { net with validators := gr.2 }
      if gr.1 then
        let res := (net1.orbitAt net1.current_orbit_index).add_transaction t
        if res.1 then
          let net2 : Network := { net1 with
            orbits := net1.orbits.set net1.current_orbit_index res.2,
            total_transactions := net1.total_transactions + 1 }
          if res.2.is_full then some (net2.seal_current_orbit, [t])
          else
            match net2.walk rest with
            | none => none
            | some wr => some (wr.1, t :: wr.2)
        else net1.walk rest
      else net1.walk rest

/-- `list.remove(tx)`: removes the first occurrence.  (In the source the
only caller removes elements known to be present, so the absent-element
`ValueError` branch is unreachable and modelled as a no-op.) -/
def eraseFirst : List Transaction → Transaction → List Transaction
  | [], _ => []
  | x :: xs, t => if x = t then xs else x :: eraseFirst xs t

/-- `OrbitChainNetwork.process_pending_transactions`; `none` models the
uncaught `ZeroDivisionError` escaping from the consensus gate. -/
def Network.process_pending_transactions (net : Network) : Option Network :=
  if net.pending_transactions = [] then some net
  else
    let cur := net.orbitAt net.current_orbit_index
    let net1 := if cur.is_full || cur.is_sealed then net.create_new_orbit else net
    match net1.walk net.pending_transactions with
    | none => none
    | some wr =>
      some { wr.1 with
        pending_transactions := wr.2.foldl eraseFirst wr.1.pending_transactions }

/-- `OrbitChainNetwork.show_orbit_detail`, keyed on its observable
behaviour: indices `≥ len(orbits)` hit the explicit existence check;
any other index reaches `self.orbits[orbit_number]`, where Python list
indexing serves indices in `[-len, len)` (negative ones counting from
the end) and raises `IndexError` below `-len`. -/
def Network.show_orbit_detail (net : Network) (orbit_number : Int) : OrbitDetail :=
  if orbit_number ≥ (net.orbits.length : Int) then .notFound
  else if 0 ≤ orbit_number then .detail (net.orbitAt orbit_number.toNat)
  else if 0 ≤ orbit_number + (net.orbits.length : Int) then
    .detail (net.orbitAt (orbit_number + (net.orbits.length : Int)).toNat)
  else .fault

/-- Placeholder network (default of `Option.getD` in concrete tests). -/
def dummyNetwork : Network := Network.init "" 0

/-! ## Concrete test data -/

/-- A well-formed transaction (non-empty sender and receiver, a full
16-character integrity tag), indexed by `i` for distinctness. -/
def mkTx (i : Nat) : Transaction :=
  Transaction.create ("S" ++ toString i) ("R" ++ toString i) ("d" ++ toString i) "transfer"
    (toString i) ("t" ++ toString i)

/-- The §8 scenario ledger: fresh network with four always-active
validators (mirroring the demo's validator set). -/
def scenarioStart : Network :=
  ((((Network.init "OrbitChain-Demo" 0).add_validator
      (Validator.init "Alice-Node" 1000)).add_validator
      (Validator.init "Bob-Node" 750)).add_validator
      (Validator.init "Carol-Node" 500)).add_validator (Validator.init "Dave-Node" 250)

/-- One submit-then-process round, as the demo driver performs per
transaction. -/
def scenarioStep (net : Network) (t : Transaction) : Option Network :=
  (net.submit_transaction t).process_pending_transactions

/-- The §8 scenario: ten well-formed transactions submitted and
processed one at a time. -/
def scenarioFinal : Option Network :=
  (List.range 10).foldlM (fun net i => scenarioStep net (mkTx i)) scenarioStart

/-- The §8 scenario's final ledger state. -/
def scenarioNet : Network := scenarioFinal.getD dummyNetwork

/-- A validator that has been deactivated (`is_active = False`), as the
source permits at any time. -/
def inactiveVal : Validator := { Validator.init "v" 100 with is_active := false }

/-- Ledger with a non-empty registry of all-inactive validators and one
well-formed pending transaction. -/
def netC1 : Network :=
  ((Network.init "n" 0).add_validator inactiveVal).submit_transaction (mkTx 0)

/-- A fresh ledger (genesis orbit only). -/
def netC6 : Network := Network.init "n" 0

/-- A reachable two-orbit ledger: one transaction submitted and
processed on a fresh ledger (the full genesis forces a second orbit). -/
def wNet : Network :=
  ((Network.init "w" 0).submit_transaction (mkTx 3)).process_pending_transactions.getD
    dummyNetwork

/-- `wNet` after a manual seal of its (open) current orbit. -/
def wNet2 : Network := wNet.seal_current_orbit

/-! ## The reachable-state invariant of the ledger -/

/-- The hash-chain part of the ledger invariant: the current index
points at the last orbit, every earlier orbit is sealed, every sealed
non-genesis orbit links to its predecessor's orbital hash, and the
genesis slot has an empty previous hash. -/
structure Inv0 (net : Network) : Prop where
  idx_len : net.current_orbit_index + 1 = net.orbits.length
  sealed_lt : ∀ i, i < net.current_orbit_index → (net.orbitAt i).is_sealed = true
  chain : ∀ i, 0 < i → i < net.orbits.length → (net.orbitAt i).is_sealed = true →
    (net.orbitAt i).previous_hash = (net.orbitAt (i - 1)).orbital_hash
  genesis_prev : (net.orbitAt 0).previous_hash = ""

/-- The full invariant: additionally, a full current orbit is sealed
(between public operations an orbit never sits full-but-open). -/
structure Inv (net : Network) extends Inv0 net : Prop where
  full_sealed : (net.orbitAt net.current_orbit_index).is_full = true →
    (net.orbitAt net.current_orbit_index).is_sealed = true

/-- The states of the ledger reachable through its public operations:
construction, validator registration, transaction submission, pending
processing (when it completes without a fault) and manual sealing. -/
inductive Reachable : Network → Prop where
  | init (name : String) (clock : Nat) : Reachable (Network.init name clock)
  | add_validator {net : Network} (v : Validator) :
      Reachable net → Reachable (net.add_validator v)
  | submit {net : Network} (t : Transaction) :
      Reachable net → Reachable (net.submit_transaction t)
  | process {net net' : Network} : Reachable net →
      net.process_pending_transactions = some net' → Reachable net'
  | sealCurrent {net : Network} : Reachable net → Reachable net.seal_current_orbit

/-! ## List-indexing helper lemmas -/

theorem getD_set_self {α : Type} (l : List α) (i : Nat) (a d : α) (h : i < l.length) :
    (l.set i a).getD i d = a := by
  induction l generalizing i with
  | nil => simp at h
  | cons x xs ih =>
    cases i with
    | zero => rfl
    | succ n => simpa [List.set, List.getD] using ih n (by simpa using h)

theorem getD_set_other {α : Type} (l : List α) (i j : Nat) (a d : α) (h : i ≠ j) :
    (l.set i a).getD j d = l.getD j d := by
  induction l generalizing i j with
  | nil => rfl
  | cons x xs ih =>
    cases i with
    | zero =>
      cases j with
      | zero => exact absurd rfl h
      | succ m => rfl
    | succ n =>
      cases j with
      | zero => rfl
      | succ m => simpa [List.set, List.getD] using ih n m (by omega)

theorem getD_append_left {α : Type} (l₁ l₂ : List α) (i : Nat) (d : α) (h : i < l₁.length) :
    (l₁ ++ l₂).getD i d = l₁.getD i d := by
  induction l₁ generalizing i with
  | nil => simp at h
  | cons x xs ih =>
    cases i with
    | zero => rfl
    | succ n => simpa [List.getD] using ih n (by simpa using h)

theorem getD_append_len {α : Type} (l : List α) (a d : α) :
    (l ++ [a]).getD l.length d = a := by
  induction l with
  | nil => rfl
  | cons x xs ih => exact ih

/-! ## Field-shape facts about the orbit operations -/

theorem update_merkle_root_fields (o : Orbit) :
    (o.update_merkle_root).is_sealed = o.is_sealed ∧
    (o.update_merkle_root).previous_hash = o.previous_hash ∧
    (o.update_merkle_root).orbital_hash = o.orbital_hash ∧
    (o.update_merkle_root).transactions = o.transactions ∧
    (o.update_merkle_root).max_transactions = o.max_transactions := by
  unfold Orbit.update_merkle_root
  split <;> simp

theorem seal_orbit_fields (o : Orbit) (p : String) :
    (o.seal_orbit p).is_sealed = true ∧
    (o.seal_orbit p).previous_hash = p ∧
    (o.seal_orbit p).transactions = o.transactions ∧
    (o.seal_orbit p).merkle_root = o.merkle_root ∧
    (o.seal_orbit p).max_transactions = o.max_transactions := by
  simp [Orbit.seal_orbit]

/-- Case analysis of `Orbit.add_transaction`, exactly as the source
branches: failure (unchanged orbit) iff sealed or `count ≥ capacity`;
otherwise append and recompute the merkle root. -/
theorem add_transaction_cases (o : Orbit) (t : Transaction) :
    ((o.is_sealed = true ∨ (o.transactions.length : Int) ≥ o.max_transactions) ∧
      o.add_transaction t = (false, o)) ∨
    (o.is_sealed = false ∧ (o.transactions.length : Int) < o.max_transactions ∧
      o.add_transaction t =
        (true, Orbit.update_merkle_root { o with transactions := o.transactions ++ [t] })) := by
  unfold Orbit.add_transaction
  by_cases h1 : o.is_sealed
  · exact Or.inl ⟨Or.inl h1, by simp [h1]⟩
  · by_cases h2 : (o.transactions.length : Int) ≥ o.max_transactions
    · exact Or.inl ⟨Or.inr h2, by simp [h1, h2]⟩
    · exact Or.inr ⟨by simpa using h1, by omega, by simp [h1, h2]⟩

theorem add_transaction_true_shape (o : Orbit) (t : Transaction)
    (h : (o.add_transaction t).1 = true) :
    (o.add_transaction t).2.is_sealed = false ∧
    (o.add_transaction t).2.previous_hash = o.previous_hash ∧
    (o.add_transaction t).2.orbital_hash = o.orbital_hash := by
  rcases add_transaction_cases o t with ⟨_, heq⟩ | ⟨hs, _, heq⟩
  · rw [heq] at h; simp at h
  · rw [heq]
    have hf := update_merkle_root_fields { o with transactions := o.transactions ++ [t] }
    exact ⟨by rw [hf.1]; exact hs, by rw [hf.2.1], by rw [hf.2.2.1]⟩

/-! ## Invariant preservation -/

theorem inv_congr (net net' : Network) (ho : net'.orbits = net.orbits)
    (hi : net'.current_orbit_index = net.current_orbit_index) (h : Inv net) : Inv net' := by
  refine ⟨⟨?_, ?_, ?_, ?_⟩, ?_⟩ <;>
    simp only [Network.orbitAt, ho, hi]
  · exact h.idx_len
  · exact h.sealed_lt
  · exact h.chain
  · exact h.genesis_prev
  · exact h.full_sealed

theorem inv_init (name : String) (clock : Nat) : Inv (Network.init name clock) := by
  refine ⟨⟨rfl, ?_, ?_, rfl⟩, fun _ => rfl⟩
  · intro i hi; exact absurd hi (Nat.not_lt_zero i)
  · intro i hi0 hilen
    have : (Network.init name clock).orbits.length = 1 := rfl
    omega

theorem inv_add_validator (net : Network) (v : Validator) (h : Inv net) :
    Inv (net.add_validator v) :=
  inv_congr net (net.add_validator v) rfl rfl h

theorem inv_submit (net : Network) (t : Transaction) (h : Inv net) :
    Inv (net.submit_transaction t) :=
  inv_congr net (net.submit_transaction t) rfl rfl h

theorem inv_seal_current (net : Network) (h : Inv0 net) : Inv net.seal_current_orbit := by
  have hlen : net.current_orbit_index < net.orbits.length := by
    have := h.idx_len; omega
  set idx := net.current_orbit_index with hidx
  set prev : String :=
    (if idx > 0 then (net.orbitAt (idx - 1)).orbital_hash else "") with hprev
  set sealed : Orbit := (net.orbitAt idx).seal_orbit prev with hsealed
  have hform : net.seal_current_orbit =
      { net with orbits := net.orbits.set idx sealed } := rfl
  have horb : net.seal_current_orbit.orbits = net.orbits.set idx sealed := by rw [hform]
  have hcur : net.seal_current_orbit.current_orbit_index = idx := by rw [hform]
  have hAtIdx : net.seal_current_orbit.orbitAt idx = sealed := by
    simp only [Network.orbitAt, horb]
    exact getD_set_self net.orbits idx sealed dummyOrbit hlen
  have hAtOther : ∀ j, j ≠ idx → net.seal_current_orbit.orbitAt j = net.orbitAt j := by
    intro j hj
    simp only [Network.orbitAt, horb]
    exact getD_set_other net.orbits idx j sealed dummyOrbit (fun he => hj he.symm)
  have hSealFields := seal_orbit_fields (net.orbitAt idx) prev
  refine ⟨⟨?_, ?_, ?_, ?_⟩, ?_⟩
  · rw [hcur, horb]; simpa using h.idx_len
  · intro i hi
    rw [hcur] at hi
    rw [hAtOther i (by omega)]
    exact h.sealed_lt i hi
  · intro i hi0 hilen _hiseal
    rw [horb, List.length_set] at hilen
    by_cases hcase : i = idx
    · subst hcase
      have hipos : 0 < idx := hi0
      rw [hAtIdx, hAtOther (idx - 1) (by omega)]
      rw [hSealFields.2.1, hprev]
      simp [hipos]
    · have hi_lt : i < idx := by have := h.idx_len; omega
      rw [hAtOther i hcase, hAtOther (i - 1) (by omega)]
      exact h.chain i hi0 (by omega) (by rw [hAtOther i hcase] at _hiseal; exact _hiseal)
  · by_cases h0 : idx = 0
    · rw [← h0, hAtIdx, hSealFields.2.1, hprev, h0]; simp
    · rw [hAtOther 0 (fun he => h0 he.symm)]
      exact h.genesis_prev
  · rw [hcur, hAtIdx]
    intro _
    exact hSealFields.1

theorem inv_create_new (net : Network) (h : Inv0 net)
    (hsealed : (net.orbitAt net.current_orbit_index).is_sealed = true) :
    Inv net.create_new_orbit := by
  have hlen : net.current_orbit_index < net.orbits.length := by
    have := h.idx_len; omega
  set idx := net.current_orbit_index with hidx
  set fresh : Orbit := Orbit.init (idx + 1) 8 (toString net.clock) with hfresh
  have horb : net.create_new_orbit.orbits = net.orbits ++ [fresh] := rfl
  have hcur : net.create_new_orbit.current_orbit_index = idx + 1 := rfl
  have hAtOld : ∀ j, j < net.orbits.length → net.create_new_orbit.orbitAt j = net.orbitAt j := by
    intro j hj
    simp only [Network.orbitAt, horb]
    exact getD_append_left net.orbits [fresh] j dummyOrbit hj
  have hAtNew : net.create_new_orbit.orbitAt net.orbits.length = fresh := by
    simp only [Network.orbitAt, horb]
    exact getD_append_len net.orbits fresh dummyOrbit
  have hlen_eq : net.orbits.length = idx + 1 := (h.idx_len).symm
  refine ⟨⟨?_, ?_, ?_, ?_⟩, ?_⟩
  · rw [hcur, horb]; simp [hlen_eq]
  · intro i hi
    rw [hcur] at hi
    rw [hAtOld i (by omega)]
    rcases Nat.lt_or_ge i idx with hi' | hi'
    · exact h.sealed_lt i hi'
    · have : i = idx := by omega
      subst this
      exact hsealed
  · intro i hi0 hilen hiseal
    rw [horb, List.length_append, List.length_singleton] at hilen
    by_cases hcase : i = net.orbits.length
    · subst hcase
      rw [hAtNew] at hiseal
      simp [hfresh, Orbit.init] at hiseal
    · have hi_lt : i < net.orbits.length := by omega
      rw [hAtOld i hi_lt] at hiseal ⊢
      rw [hAtOld (i - 1) (by omega)]
      exact h.chain i hi0 hi_lt hiseal
  · rw [hAtOld 0 (by omega)]
    exact h.genesis_prev
  · rw [hcur, ← hlen_eq, hAtNew]
    intro hful
    simp [hfresh, Orbit.init, Orbit.is_full] at hful

/-- Admitting a transaction into the current orbit (the successful
`current_orbit.add_transaction(tx)` step of the pending walk) preserves
the hash-chain invariant. -/
theorem inv0_after_add (net : Network) (t : Transaction) (h : Inv net)
    (hadd : ((net.orbitAt net.current_orbit_index).add_transaction t).1 = true) :
    Inv0 { net with
      orbits := net.orbits.set net.current_orbit_index
        ((net.orbitAt net.current_orbit_index).add_transaction t).2,
      total_transactions := net.total_transactions + 1 } := by
  have hlen : net.current_orbit_index < net.orbits.length := by
    have := h.idx_len; omega
  set idx := net.current_orbit_index with hidx
  set o' : Orbit := ((net.orbitAt idx).add_transaction t).2 with ho'
  set net2 : Network := { net with
      orbits := net.orbits.set idx o',
      total_transactions := net.total_transactions + 1 } with hnet2
  have horb : net2.orbits = net.orbits.set idx o' := rfl
  have hcur : net2.current_orbit_index = idx := rfl
  have hshape := add_transaction_true_shape (net.orbitAt idx) t hadd
  have hAtIdx : net2.orbitAt idx = o' := by
    simp only [Network.orbitAt, horb]
    exact getD_set_self net.orbits idx o' dummyOrbit hlen
  have hAtOther : ∀ j, j ≠ idx → net2.orbitAt j = net.orbitAt j := by
    intro j hj
    simp only [Network.orbitAt, horb]
    exact getD_set_other net.orbits idx j o' dummyOrbit (fun he => hj he.symm)
  refine ⟨?_, ?_, ?_, ?_⟩
  · rw [hcur, horb]; simpa using h.idx_len
  · intro i hi
    rw [hcur] at hi
    rw [hAtOther i (by omega)]
    exact h.sealed_lt i hi
  · intro i hi0 hilen hiseal
    rw [horb, List.length_set] at hilen
    by_cases hcase : i = idx
    · subst hcase
      rw [hAtIdx] at hiseal
      rw [hshape.1] at hiseal
      simp at hiseal
    · rw [hAtOther i hcase] at hiseal ⊢
      rw [hAtOther (i - 1) (by have := h.idx_len; omega)]
      exact h.chain i hi0 (by omega) hiseal
  · by_cases h0 : idx = 0
    · have hgoal : net2.orbitAt 0 = o' := by rw [← h0]; exact hAtIdx
      rw [hgoal, hshape.2.1, h0]
      exact h.genesis_prev
    · rw [hAtOther 0 (fun he => h0 he.symm)]
      exact h.genesis_prev

theorem inv_after_add_not_full (net : Network) (t : Transaction) (h : Inv net)
    (hadd : ((net.orbitAt net.current_orbit_index).add_transaction t).1 = true)
    (hnf : ((net.orbitAt net.current_orbit_index).add_transaction t).2.is_full = false) :
    Inv { net with
      orbits := net.orbits.set net.current_orbit_index
        ((net.orbitAt net.current_orbit_index).add_transaction t).2,
      total_transactions := net.total_transactions + 1 } := by
  refine ⟨inv0_after_add net t h hadd, ?_⟩
  have hlen : net.current_orbit_index < net.orbits.length := by
    have := h.idx_len; omega
  have hAt : ({ net with
      orbits := net.orbits.set net.current_orbit_index
        ((net.orbitAt net.current_orbit_index).add_transaction t).2,
      total_transactions := net.total_transactions + 1 } : Network).orbitAt
        net.current_orbit_index
      = ((net.orbitAt net.current_orbit_index).add_transaction t).2 := by
    simp only [Network.orbitAt]
    exact getD_set_self _ _ _ _ hlen
  intro hful
  have hful' : ((net.orbitAt net.current_orbit_index).add_transaction t).2.is_full = true := by
    rw [← hAt]; exact hful
  rw [hnf] at hful'
  simp at hful'

/-- The FIFO walk of `process_pending_transactions` preserves the ledger
invariant whenever it completes without a fault. -/
theorem inv_walk : ∀ (txs : List Transaction) (net : Network) (wr : Network × List Transaction),
    Inv net → net.walk txs = some wr → Inv wr.1 := by
  intro txs
  induction txs with
  | nil =>
    intro net wr h hw
    simp only [Network.walk, Option.some.injEq] at hw
    rw [← hw]
    exact h
  | cons t rest ih =>
    intro net wr h hw
    simp only [Network.walk] at hw
    split at hw
    · exact absurd hw (by simp)
    · next gr heq =>
      have h1 : Inv { net with validators := gr.2 } :=
        inv_congr net { net with validators := gr.2 } rfl rfl h
      split at hw
      · split at hw
        · next hadd =>
          split at hw
          · next hful =>
            rw [← Option.some.inj hw]
            exact inv_seal_current _ (inv0_after_add { net with validators := gr.2 } t h1 hadd)
          · next hful =>
            split at hw
            · exact absurd hw (by simp)
            · next wr2 heq2 =>
              rw [← Option.some.inj hw]
              exact ih _ wr2
                (inv_after_add_not_full { net with validators := gr.2 } t h1 hadd
                  (by simpa using hful)) heq2
        · next hadd =>
          exact ih _ wr h1 hw
      · next hok =>
        exact ih _ wr h1 hw

/-- `process_pending_transactions` preserves the ledger invariant
whenever it completes without a fault. -/
theorem inv_process (net net' : Network) (h : Inv net)
    (hp : net.process_pending_transactions = some net') : Inv net' := by
  unfold Network.process_pending_transactions at hp
  by_cases hpend : net.pending_transactions = []
  · rw [if_pos hpend] at hp
    rw [← Option.some.inj hp]
    exact h
  · rw [if_neg hpend] at hp
    simp only at hp
    by_cases hc : ((net.orbitAt net.current_orbit_index).is_full
        || (net.orbitAt net.current_orbit_index).is_sealed) = true
    · rw [if_pos hc] at hp
      have hsealed : (net.orbitAt net.current_orbit_index).is_sealed = true := by
        simp only [Bool.or_eq_true] at hc
        rcases hc with h' | h'
        · exact h.full_sealed h'
        · exact h'
      cases hw : Network.walk net.create_new_orbit net.pending_transactions with
      | none => rw [hw] at hp; exact absurd hp (by simp)
      | some wr =>
        rw [hw] at hp
        simp only [Option.some.injEq] at hp
        have h2 : Inv wr.1 := inv_walk _ _ wr (inv_create_new net h.toInv0 hsealed) hw
        rw [← hp]
        exact inv_congr wr.1 _ rfl rfl h2
    · rw [if_neg hc] at hp
      cases hw : Network.walk net net.pending_transactions with
      | none => rw [hw] at hp; exact absurd hp (by simp)
      | some wr =>
        rw [hw] at hp
        simp only [Option.some.injEq] at hp
        have h2 : Inv wr.1 := inv_walk _ _ wr h hw
        rw [← hp]
        exact inv_congr wr.1 _ rfl rfl h2

/-- Every reachable ledger state satisfies the invariant. -/
theorem reachable_inv {net : Network} (h : Reachable net) : Inv net := by
  induction h with
  | init name clock => exact inv_init name clock
  | add_validator v _ ih => exact inv_add_validator _ v ih
  | submit t _ ih => exact inv_submit _ t ih
  | process _ hp ih => exact inv_process _ _ ih hp
  | sealCurrent _ ih => exact inv_seal_current _ ih.toInv0

/-- `wNet` is the completed result of processing one submitted
transaction on a fresh ledger. -/
theorem wNet_process :
    ((Network.init "w" 0).submit_transaction (mkTx 3)).process_pending_transactions
      = some wNet := by
  rfl

/-! ## Claims -/

/-- C1: the claim says that with a non-empty validator registry in which
no validator is active, the consensus gate rejects (returns false) and
`processPending` completes normally.  The code instead evaluates
`approvals / len([v for v in self.validators if v.is_active])` with a
zero denominator and raises `ZeroDivisionError`: on the concrete ledger
`netC1` (one inactive validator, one well-formed pending transaction)
both the gate and `process_pending_transactions` fault (`none`). -/
theorem claim_C1_division_fault :
    netC1.validators ≠ [] ∧
    netC1.validators.all (fun v => !v.is_active) = true ∧
    netC1.validate_transaction_consensus (mkTx 0) = none ∧
    netC1.process_pending_transactions = none := by
  decide

/-- C2 counterexample: re-sealing an already sealed orbit with a
different `previousHash` is not a no-op — it overwrites `previous_hash`
and changes `orbital_hash`. -/
theorem claim_C2_counterexample :
    ((Orbit.init 1 8 "t1").seal_orbit "aaa").is_sealed = true ∧
    (((Orbit.init 1 8 "t1").seal_orbit "aaa").seal_orbit "bbb").previous_hash
      ≠ ((Orbit.init 1 8 "t1").seal_orbit "aaa").previous_hash ∧
    (((Orbit.init 1 8 "t1").seal_orbit "aaa").seal_orbit "bbb").orbital_hash
      ≠ ((Orbit.init 1 8 "t1").seal_orbit "aaa").orbital_hash := by
  decide

/-- C2 (amended): `seal_orbit` has no already-sealed guard.  Calling it
again keeps the sealed flag `true` but sets `previous_hash` to the new
argument and recomputes `orbital_hash` from the updated content; only
when called again with the same `previousHash` is it a no-op. -/
theorem claim_C2_reseal_overwrites (o : Orbit) (p q : String) :
    ((o.seal_orbit p).seal_orbit q).is_sealed = true ∧
    ((o.seal_orbit p).seal_orbit q).previous_hash = q ∧
    (o.seal_orbit p).seal_orbit p = o.seal_orbit p := by
  refine ⟨rfl, rfl, ?_⟩
  simp only [Orbit.seal_orbit, sealContent]

/-- C3 counterexample: a freshly constructed orbit has an empty
transaction list but its merkle root is the empty string, not sixteen
zero characters (`__init__` sets `merkle_root = ""` and never calls
`update_merkle_root`). -/
theorem claim_C3_counterexample :
    (Orbit.init 0 8 "t0").transactions = [] ∧
    (Orbit.init 0 8 "t0").merkle_root ≠ zeros16 := by
  decide

/-- C3 (amended): a freshly constructed orbit's merkle root is `""`
(not sixteen zeros); the merkle computation itself maps an empty
transaction list to sixteen zeros; and after every successful `add` the
orbit's merkle root equals the merkle function of its current ordered
list of transaction integrity tags. -/
theorem claim_C3_merkle :
    (∀ (n : Nat) (cap : Int) (ts : String), (Orbit.init n cap ts).merkle_root = "") ∧
    (∀ o : Orbit, o.transactions = [] → o.update_merkle_root.merkle_root = zeros16) ∧
    (∀ (o : Orbit) (t : Transaction), (o.add_transaction t).1 = true →
      (o.add_transaction t).2.merkle_root
        = merkleFn ((o.add_transaction t).2.transactions.map Transaction.signature)) := by
  refine ⟨fun n cap ts => rfl, fun o ho => by simp [Orbit.update_merkle_root, ho], ?_⟩
  intro o t hadd
  rcases add_transaction_cases o t with ⟨_, heq⟩ | ⟨_, _, heq⟩
  · rw [heq] at hadd; simp at hadd
  · rw [heq]
    simp [Orbit.update_merkle_root, merkleFn]

/-- C3 witness: the amended claim at concrete inputs. -/
theorem claim_C3_merkle_witness :
    (Orbit.init 0 8 "t0").merkle_root = "" ∧
    (Orbit.init 0 8 "t0").update_merkle_root.merkle_root = zeros16 ∧
    ((Orbit.init 0 8 "t0").add_transaction (mkTx 0)).2.merkle_root
      = merkleFn (((Orbit.init 0 8 "t0").add_transaction (mkTx 0)).2.transactions.map
          Transaction.signature) :=
  ⟨claim_C3_merkle.1 0 8 "t0",
   claim_C3_merkle.2.1 (Orbit.init 0 8 "t0") rfl,
   claim_C3_merkle.2.2 (Orbit.init 0 8 "t0") (mkTx 0) (by decide)⟩

/-- C4: in every reachable ledger state, the genesis slot's
`previous_hash` is the empty string, and every sealed orbit at index
`i ≥ 1` has `previous_hash` equal to the predecessor's `orbital_hash`. -/
theorem claim_C4_hash_chain (net : Network) (h : Reachable net) :
    (net.orbitAt 0).previous_hash = "" ∧
    ∀ i, 1 ≤ i → i < net.orbits.length → (net.orbitAt i).is_sealed = true →
      (net.orbitAt i).previous_hash = (net.orbitAt (i - 1)).orbital_hash := by
  have hi := reachable_inv h
  exact ⟨hi.genesis_prev, fun i h1 h2 h3 => hi.chain i h1 h2 h3⟩

/-- C4 witness: the hash chain on the concrete reachable two-orbit
ledger `wNet2` (submit, process, manual seal). -/
theorem claim_C4_hash_chain_witness :
    (wNet2.orbitAt 0).previous_hash = "" ∧
    (wNet2.orbitAt 1).previous_hash = (wNet2.orbitAt 0).orbital_hash := by
  have hr : Reachable wNet2 :=
    Reachable.sealCurrent
      (Reachable.process (Reachable.submit (mkTx 3) (Reachable.init "w" 0)) wNet_process)
  exact ⟨(claim_C4_hash_chain wNet2 hr).1,
    (claim_C4_hash_chain wNet2 hr).2 1 (by decide) (by decide) (by decide)⟩

/-- C5 counterexample: constructing an orbit with capacity 0 raises
nothing — `Orbit.__init__` performs no validation of any kind — and
produces an ordinary usable orbit object (open, and still responding
normally to `seal_orbit`), not a construction failure. -/
theorem claim_C5_counterexample :
    (Orbit.init 7 0 "t0").is_sealed = false ∧
    (Orbit.init 7 0 "t0").max_transactions = 0 ∧
    ((Orbit.init 7 0 "t0").seal_orbit "p").is_sealed = true := by
  decide

/-- C5 (amended): construction with non-positive capacity succeeds (the
constructor performs no validation); the resulting orbit is open and
empty but rejects every `add` with `false`, its count already meeting
its capacity. -/
theorem claim_C5_nonpositive_capacity (n : Nat) (cap : Int) (ts : String) (t : Transaction)
    (hcap : cap ≤ 0) :
    (Orbit.init n cap ts).is_sealed = false ∧
    (Orbit.init n cap ts).transactions = [] ∧
    (Orbit.init n cap ts).add_transaction t = (false, Orbit.init n cap ts) := by
  refine ⟨rfl, rfl, ?_⟩
  rcases add_transaction_cases (Orbit.init n cap ts) t with ⟨_, heq⟩ | ⟨_, hlt, _⟩
  · exact heq
  · simp [Orbit.init] at hlt
    omega

/-- C5 witness: the amended claim at capacity 0. -/
theorem claim_C5_nonpositive_capacity_witness :
    (Orbit.init 7 0 "t0").is_sealed = false ∧
    (Orbit.init 7 0 "t0").transactions = [] ∧
    (Orbit.init 7 0 "t0").add_transaction (mkTx 0) = (false, Orbit.init 7 0 "t0") :=
  claim_C5_nonpositive_capacity 7 0 "t0" (mkTx 0) (by decide)

/-- C6 counterexample: on a fresh ledger (a single orbit), the index -1
is out of range of the orbit sequence, yet `show_orbit_detail` returns
the genesis orbit's content (Python negative indexing), not a NotFound
error. -/
theorem claim_C6_counterexample :
    netC6.orbits.length = 1 ∧
    netC6.show_orbit_detail (-1) = OrbitDetail.detail (netC6.orbitAt 0) ∧
    netC6.show_orbit_detail (-1) ≠ OrbitDetail.notFound := by
  refine ⟨by decide, by rfl, by decide⟩

/-- C6 (amended): indices at or above the orbit count give NotFound and
in-range non-negative indices give exactly the orbit at that index, as
claimed; but a negative index down to minus the count yields the orbit
at count+index (Python negative indexing), and below that the call is
an unchecked IndexError fault. -/
theorem claim_C6_orbit_detail (net : Network) (i : Int) :
    ((net.orbits.length : Int) ≤ i → net.show_orbit_detail i = OrbitDetail.notFound) ∧
    (0 ≤ i → i < (net.orbits.length : Int) →
      net.show_orbit_detail i = OrbitDetail.detail (net.orbitAt i.toNat)) ∧
    (i < 0 → 0 ≤ i + (net.orbits.length : Int) →
      net.show_orbit_detail i
        = OrbitDetail.detail (net.orbitAt (i + (net.orbits.length : Int)).toNat)) ∧
    (i + (net.orbits.length : Int) < 0 → net.show_orbit_detail i = OrbitDetail.fault) := by
  unfold Network.show_orbit_detail
  refine ⟨?_, ?_, ?_, ?_⟩
  · intro h1
    rw [if_pos (by omega)]
  · intro h1 h2
    rw [if_neg (by omega), if_pos h1]
  · intro h1 h2
    rw [if_neg (by omega), if_neg (by omega), if_pos h2]
  · intro h1
    rw [if_neg (by omega), if_neg (by omega), if_neg (by omega)]

/-- C6 witness: all four regimes of `show_orbit_detail` on the concrete
fresh ledger. -/
theorem claim_C6_orbit_detail_witness :
    netC6.show_orbit_detail 5 = OrbitDetail.notFound ∧
    netC6.show_orbit_detail 0 = OrbitDetail.detail (netC6.orbitAt 0) ∧
    netC6.show_orbit_detail (-1) = OrbitDetail.detail (netC6.orbitAt 0) ∧
    netC6.show_orbit_detail (-2) = OrbitDetail.fault :=
  ⟨(claim_C6_orbit_detail netC6 5).1 (by decide),
   (claim_C6_orbit_detail netC6 0).2.1 (by decide) (by decide),
   (claim_C6_orbit_detail netC6 (-1)).2.2.1 (by decide) (by decide),
   (claim_C6_orbit_detail netC6 (-2)).2.2.2 (by decide)⟩

/-- C7 counterexample: an orbit constructed with capacity -1 is open and
its transaction count (0) does not equal its capacity, yet `add` fails —
the source tests `count >= capacity`, not equality. -/
theorem claim_C7_counterexample :
    ((Orbit.init 0 (-1) "t0").add_transaction (mkTx 0)).1 = false ∧
    (Orbit.init 0 (-1) "t0").is_sealed = false ∧
    ((Orbit.init 0 (-1) "t0").transactions.length : Int)
      ≠ (Orbit.init 0 (-1) "t0").max_transactions := by
  decide

/-- C7 (amended): `add` returns false and leaves the orbit entirely
unchanged whenever it is sealed or its transaction count is at least
(`≥`, not exactly equal to) its capacity; otherwise it appends the
transaction, recomputes the merkle root, and returns true. -/
theorem claim_C7_add (o : Orbit) (t : Transaction) :
    ((o.is_sealed = true ∨ (o.transactions.length : Int) ≥ o.max_transactions) →
      o.add_transaction t = (false, o)) ∧
    (o.is_sealed = false → (o.transactions.length : Int) < o.max_transactions →
      o.add_transaction t =
        (true, Orbit.update_merkle_root { o with transactions := o.transactions ++ [t] })) := by
  rcases add_transaction_cases o t with ⟨hc, heq⟩ | ⟨h1, h2, heq⟩
  · refine ⟨fun _ => heq, ?_⟩
    intro hs hlt
    rcases hc with hc | hc
    · simp [hs] at hc
    · omega
  · refine ⟨?_, fun _ _ => heq⟩
    intro hc
    rcases hc with hc | hc
    · simp [h1] at hc
    · omega

/-- C7 witness: the failure case on a concrete sealed orbit and the
success case on a concrete open one. -/
theorem claim_C7_add_witness :
    ((Orbit.init 1 8 "t1").seal_orbit "x").add_transaction (mkTx 0)
      = (false, (Orbit.init 1 8 "t1").seal_orbit "x") ∧
    (Orbit.init 2 8 "t2").add_transaction (mkTx 0)
      = (true, Orbit.update_merkle_root
          { Orbit.init 2 8 "t2" with
            transactions := (Orbit.init 2 8 "t2").transactions ++ [mkTx 0] }) :=
  ⟨(claim_C7_add ((Orbit.init 1 8 "t1").seal_orbit "x") (mkTx 0)).1 (Or.inl (by decide)),
   (claim_C7_add (Orbit.init 2 8 "t2") (mkTx 0)).2 (by decide) (by decide)⟩

/-- C8: on a fresh default ledger (capacity 8, threshold 0.67) with four
always-active validators that approve every well-formed transaction,
submitting and processing ten transactions one at a time completes
without fault and yields, beyond the genesis orbit, exactly two orbits:
orbit #1 sealed with 8 admitted transactions, orbit #2 open with 2, and
an empty pending queue.  (`scenarioNet` is the completed final state:
`scenarioFinal = some scenarioNet` certifies no step faulted.) -/
theorem claim_C8_scenario :
    scenarioFinal = some scenarioNet ∧
    scenarioNet.orbits.length = 3 ∧
    (scenarioNet.orbitAt 1).is_sealed = true ∧
    (scenarioNet.orbitAt 1).transactions.length = 8 ∧
    (scenarioNet.orbitAt 2).is_sealed = false ∧
    (scenarioNet.orbitAt 2).transactions.length = 2 ∧
    scenarioNet.pending_transactions = [] := by
  exact ⟨rfl, rfl, rfl, rfl, rfl, rfl, rfl⟩

/-- C9: `add_validator` appends the validator with
`sector_position = indexBeforeInsertion * (360 / countAfterInsertion)`
(Python integer floor division) and leaves every previously registered
validator untouched. -/
theorem claim_C9_register (net : Network) (v : Validator) :
    (net.add_validator v).validators
      = net.validators ++ [{ v with
          sector_position :=
            net.validators.length * (360 / (net.validators.length + 1)) }] := by
  have hmax : max 1 (net.validators.length + 1) = net.validators.length + 1 :=
    Nat.max_eq_right (by omega)
  simp [Network.add_validator, hmax]

/-- C10: in every reachable ledger state, every orbit strictly before
the current index is sealed (at most the current orbit is open), and —
equivalently for the observable states — every full orbit is sealed. -/
theorem claim_C10_prefix_sealed (net : Network) (h : Reachable net) :
    (∀ i, i < net.current_orbit_index → (net.orbitAt i).is_sealed = true) ∧
    (∀ i, i < net.orbits.length → (net.orbitAt i).is_full = true →
      (net.orbitAt i).is_sealed = true) := by
  have hi := reachable_inv h
  refine ⟨hi.sealed_lt, ?_⟩
  intro i hilen hful
  rcases Nat.lt_or_ge i net.current_orbit_index with hlt | hge
  · exact hi.sealed_lt i hlt
  · have : i = net.current_orbit_index := by
      have := hi.idx_len
      omega
    subst this
    exact hi.full_sealed hful

/-- C10 witness: on the concrete reachable two-orbit ledger `wNet`
(current index 1), the orbit below the current index is sealed, and the
full genesis orbit is sealed. -/
theorem claim_C10_prefix_sealed_witness :
    (wNet.orbitAt 0).is_sealed = true := by
  have hr : Reachable wNet :=
    Reachable.process (Reachable.submit (mkTx 3) (Reachable.init "w" 0)) wNet_process
  exact (claim_C10_prefix_sealed wNet hr).1 0 (by decide)

end Orbitchain
